import Mathlib

/-
Verification development for the axessAI VS Code chat extension.

The repository contains three chat-request handler variants (an
explicit-slash-command handler, a regex-based intent-detection handler, and an
API-delegated intent-analysis handler), pure formatting functions
(formatters.ts), and an HTTP client layer (api-client.ts).

This file gives a shallow embedding of those parts:
  * strings are modelled by Lean String / List Char; JavaScript
    toLowerCase/toUpperCase/trim are modelled over ASCII via Char.toLower etc.;
  * the regular expressions used by detectIntent and the fix handler are
    translated into explicit scanning functions with JavaScript leftmost-match
    semantics;
  * network calls and the WHATWG URL parser are external collaborators and are
    modelled as explicit oracle inputs (an Env record) to the handler step
    function, which is a pure state-transition function;
  * JavaScript numbers produced by parseInt on digit strings are modelled as
    exact integers.
-/

/-! ## Character classes (JavaScript regex semantics, ASCII fragment) -/

/-- JavaScript regex word character \w = [A-Za-z0-9_]. -/
def isWordChar (c : Char) : Bool := c.isAlphanum || c = '_'

/-- Whitespace as used by String.trim / regex \s (ASCII fragment). -/
def isWS (c : Char) : Bool := c.isWhitespace

/-- JavaScript String.prototype.trim: drop whitespace at both ends. -/
def trimChars (l : List Char) : List Char :=
  ((l.dropWhile isWS).reverse.dropWhile isWS).reverse

/-- The handlers lowercase then trim the raw query
(`query.toLowerCase().trim()`); ASCII model of that normalisation. -/
def normData (q : String) : List Char := trimChars (q.data.map Char.toLower)

/-! ## URL token matching: regex /https?:\/\/[^\s]+/ -/

/-- Match of /https?:\/\/[^\s]+/ anchored at the start of the list: the scheme
(greedy "https" preferred, as regex backtracking gives) followed by at least one
non-whitespace character, extended greedily. Returns the whole match. -/
def matchUrlAt : List Char → Option (List Char)
  | 'h' :: 't' :: 't' :: 'p' :: 's' :: ':' :: '/' :: '/' :: rest =>
    match rest.takeWhile (fun c => !isWS c) with
    | [] => none
    | c :: cs => some ('h' :: 't' :: 't' :: 'p' :: 's' :: ':' :: '/' :: '/' :: c :: cs)
  | 'h' :: 't' :: 't' :: 'p' :: ':' :: '/' :: '/' :: rest =>
    match rest.takeWhile (fun c => !isWS c) with
    | [] => none
    | c :: cs => some ('h' :: 't' :: 't' :: 'p' :: ':' :: '/' :: '/' :: c :: cs)
  | _ => none

/-- Leftmost match of the URL regex: JavaScript query.match(urlPattern)[0].
Scans positions left to right, first successful anchor wins. -/
def firstUrlTokenAux : List Char → Option (List Char)
  | [] => none
  | c :: cs =>
    match matchUrlAt (c :: cs) with
    | some t => some t
    | none => firstUrlTokenAux cs

/-- String-level wrapper for the leftmost URL token. -/
def firstUrlToken (s : String) : Option String :=
  (firstUrlTokenAux s.data).map String.mk

/-! ## Fix-signal regex: /fix|issue|problem|error|violation|#\d+|\b\d+\b/ -/

/-- Substring containment (used for the literal keyword alternatives of the
fix-intent regex; .test on a literal alternative is substring search). -/
def isSubstr (pat : List Char) : List Char → Bool
  | [] => pat.isEmpty
  | c :: cs => pat.isPrefixOf (c :: cs) || isSubstr pat cs

/-- The five literal keyword alternatives of the regex. -/
def kwHit (l : List Char) : Bool :=
  isSubstr ['f', 'i', 'x'] l ||
  isSubstr ['i', 's', 's', 'u', 'e'] l ||
  isSubstr ['p', 'r', 'o', 'b', 'l', 'e', 'm'] l ||
  isSubstr ['e', 'r', 'r', 'o', 'r'] l ||
  isSubstr ['v', 'i', 'o', 'l', 'a', 't', 'i', 'o', 'n'] l

/-- The #\d+ alternative: a hash immediately followed by a digit occurs. -/
def hasHashNum : List Char → Bool
  | [] => false
  | [_] => false
  | c :: d :: cs => (c = '#' && d.isDigit) || hasHashNum (d :: cs)

/-- Word-boundary check for the position after a digit run: \b holds after a
digit iff the next character (if any) is not a word character. -/
def boundaryAfter : List Char → Bool
  | [] => true
  | c :: _ => !isWordChar c

/-- Leftmost match of /\b(\d+)\b/ with JavaScript semantics, returning the
captured digit run. The parameter carries whether the previous character was a
word character (start of input counts as non-word). A candidate digit run
matches iff the previous character is non-word and the character after the
maximal run is non-word; positions whose previous character is a word
character cannot start a match. -/
def firstBareIntAux (prevWord : Bool) : List Char → Option (List Char)
  | [] => none
  | c :: cs =>
    if !prevWord && c.isDigit && boundaryAfter (cs.dropWhile Char.isDigit) then
      some (c :: cs.takeWhile Char.isDigit)
    else firstBareIntAux (isWordChar c) cs

/-- Leftmost bare integer token of a string (regex /\b(\d+)\b/). -/
def firstBareInt (s : String) : Option (List Char) :=
  firstBareIntAux false s.data

/-- Boolean test of the whole fix-intent regex
/fix|issue|problem|error|violation|#\d+|\b\d+\b/ : true iff some alternative
matches somewhere (alternation order is irrelevant for .test). -/
def fixRegexTest (l : List Char) : Bool :=
  kwHit l || hasHashNum l || (firstBareIntAux false l).isSome

/-! ## detectIntent (regex-based intent-detection handler variant) -/

/-- Result of detectIntent: a command name plus content, as in the source. -/
structure Intent where
  command : String
  content : String
deriving DecidableEq, Repr

/-- Translation of detectIntent: lowercase and trim the query; if the URL
regex matches, scan intent carrying the first URL match; else if the fix
regex tests true, fix intent carrying the whole normalised query; else
explain intent carrying the whole normalised query. -/
def detectIntent (q : String) : Intent :=
  let query := normData q
  match firstUrlTokenAux query with
  | some t => ⟨"scan", String.mk t⟩
  | none =>
    if fixRegexTest query then ⟨"fix", String.mk query⟩
    else ⟨"explain", String.mk query⟩

/-- Decimal value of a digit run. -/
def digitsToNat (ds : List Char) : Nat :=
  ds.foldl (fun n c => 10 * n + (c.toNat - 48)) 0

/-- Issue-number extraction in the regex-handler fix case:
content.match(/\b(\d+)\b/) parsed as an integer, and -1 when there is no
match. -/
def extractFixIndex (content : String) : Int :=
  match firstBareInt content with
  | some ds => Int.ofNat (digitsToNat ds)
  | none => -1

/-- The guard isNaN(fixIndex) || fixIndex < 0 || fixIndex >= numResults of the
fix cases, for an index that is a number (NaN is handled where parseInt is
modelled, by Option). True means the request is rejected with guidance. -/
def fixIndexGuard (fixIndex : Int) (numResults : Nat) : Bool :=
  decide (fixIndex < 0) || decide (fixIndex ≥ (numResults : Int))

/-! ## Scan response data model (types.ts) and formatters (formatters.ts) -/

/-- One raw_violations array entry of the scan response. -/
structure RawIssue where
  id : String
  description : String
  help : String
  html : String
  impact : String
deriving DecidableEq, Repr

/-- The scan response. raw_violations is a JSON object keyed by severity;
JavaScript iterates its string keys in insertion order (the order of the JSON
text), so it is modelled as an association list in that order. -/
structure ScanResponse where
  url : String
  scan_result : String
  raw_violations : List (String × List RawIssue)
deriving DecidableEq, Repr

/-- Stored violation details (types.ts DetailedViolation). -/
structure DetailedViolation where
  id : String
  help : String
  html : String
deriving DecidableEq, Repr

/-- Stored scan record (types.ts DetailedScanResults). -/
structure DetailedScanResults where
  summary : String
  violations : List DetailedViolation
deriving DecidableEq, Repr

/-- ASCII model of String.prototype.toLowerCase. -/
def lowerStr (s : String) : String := String.mk (s.data.map Char.toLower)

/-- ASCII model of String.prototype.toUpperCase. -/
def upperStr (s : String) : String := String.mk (s.data.map Char.toUpper)

/-- getSeverityIcon from formatters.ts. -/
def getSeverityIcon (severity : String) : String :=
  if lowerStr severity = "critical" then "🔴"
  else if lowerStr severity = "serious" then "🟠"
  else if lowerStr severity = "moderate" then "🟡"
  else if lowerStr severity = "minor" then "🔵"
  else "⚪"

/-- The display line pushed per issue by formatScanResults:
icon [SEVERITY] help. -/
def violationLine (severity : String) (issue : RawIssue) : String :=
  getSeverityIcon severity ++ " [" ++ upperStr severity ++ "] " ++ issue.help

/-- formatScanResults: summary line first, then one line per issue, iterating
the raw_violations entries in object order, skipping empty arrays. The
forEach/push loop is a left fold that appends. -/
def formatScanResults (r : ScanResponse) : List String :=
  r.raw_violations.foldl
    (fun acc p => if p.2.length > 0 then acc ++ p.2.map (violationLine p.1) else acc)
    ["📊 " ++ r.scan_result]

/-- Projection of a raw issue to the stored violation record. -/
def toDetailedViolation (issue : RawIssue) : DetailedViolation :=
  ⟨issue.id, issue.help, issue.html⟩

/-- extractDetailedScanResults: same iteration as formatScanResults, pushing
the id/help/html projection of each issue. -/
def extractDetailedScanResults (r : ScanResponse) : DetailedScanResults :=
  ⟨r.scan_result,
    r.raw_violations.foldl
      (fun acc p => if p.2.length > 0 then acc ++ p.2.map toDetailedViolation else acc)
      []⟩

/-- Specification helper: the issues of a response annotated with their
severity key, in the iteration order both formatters use. -/
def severityAnnotated (r : ScanResponse) : List (String × RawIssue) :=
  r.raw_violations.bind (fun p => p.2.map (fun i => (p.1, i)))

/-- Modelled from the spec: violation extraction in the fixed severity order
critical, serious, moderate, minor, preserving the response order within each
severity (the ordering §4.2 of the spec documents). Stated only to compare
with extractDetailedScanResults, which the repository implements. -/
def specOrderedViolations (r : ScanResponse) : List DetailedViolation :=
  (["critical", "serious", "moderate", "minor"].bind fun sev =>
    (r.raw_violations.filter (fun p => p.1 = sev)).bind fun p =>
      p.2.map toDetailedViolation)

/-! ## parseInt and violation lookup -/

/-- Digits of the longest digit run at the front, or none if there is none
(parseInt radix 10 stops at the first non-digit; no digit at all is NaN). -/
def leadingDigits (l : List Char) : Option (List Char) :=
  match l.takeWhile Char.isDigit with
  | [] => none
  | c :: cs => some (c :: cs)

/-- JavaScript parseInt(s, 10): skip leading whitespace, optional sign, then
the longest run of decimal digits; none models NaN. Digit strings are modelled
exactly (the handlers only compare the value with small array lengths). -/
def parseIntJS (s : String) : Option Int :=
  match s.data.dropWhile isWS with
  | '+' :: rest => (leadingDigits rest).map (fun ds => Int.ofNat (digitsToNat ds))
  | '-' :: rest => (leadingDigits rest).map (fun ds => -Int.ofNat (digitsToNat ds))
  | rest => (leadingDigits rest).map (fun ds => Int.ofNat (digitsToNat ds))

/-- detailedScanResults.violations[fixIndex - 1] in JavaScript: a negative
index reads a missing property, i.e. undefined (none). -/
def violationAt (d : DetailedScanResults) (fixIndex : Int) : Option DetailedViolation :=
  if fixIndex - 1 < 0 then none
  else d.violations.get? (fixIndex - 1).toNat

/-! ## JSON values and JSON.parse (for the api-client query body) -/

/-- The left and right curly bracket characters. -/
def lbraceChar : Char := Char.ofNat 123

/-- Right curly bracket. -/
def rbraceChar : Char := Char.ofNat 125

/-- Parsed JSON values. Numbers keep their source token: the handlers never
compute with a parsed number, so no floating-point semantics is needed. -/
inductive JsonVal where
  | null : JsonVal
  | boolean : Bool → JsonVal
  | num : String → JsonVal
  | str : String → JsonVal
  | arr : List JsonVal → JsonVal
  | obj : List (String × JsonVal) → JsonVal
deriving Repr

/-- JSON whitespace (the four characters JSON.parse skips). -/
def jsonWSChar (c : Char) : Bool := c = ' ' || c = '\t' || c = '\n' || c = '\r'

/-- Value of one hexadecimal digit. -/
def parseHexDigit (c : Char) : Option Nat :=
  if '0' ≤ c ∧ c ≤ '9' then some (c.toNat - 48)
  else if 'a' ≤ c ∧ c ≤ 'f' then some (c.toNat - 87)
  else if 'A' ≤ c ∧ c ≤ 'F' then some (c.toNat - 55)
  else none

/-- JSON string body after the opening quote; acc holds the characters read so
far in reverse. Unescaped control characters below U+0020 are a syntax error,
as in JSON.parse. -/
def parseJsonStringBody (acc : List Char) : List Char → Except String (String × List Char)
  | [] => .error "Unterminated string in JSON"
  | c :: cs =>
    if c = '"' then .ok (String.mk acc.reverse, cs)
    else if c.toNat < 32 then .error "Bad control character in JSON"
    else if c = '\\' then
      match cs with
      | [] => .error "Bad escape in JSON"
      | e :: cs2 =>
        if e = '"' then parseJsonStringBody ('"' :: acc) cs2
        else if e = '\\' then parseJsonStringBody ('\\' :: acc) cs2
        else if e = '/' then parseJsonStringBody ('/' :: acc) cs2
        else if e = 'b' then parseJsonStringBody (Char.ofNat 8 :: acc) cs2
        else if e = 'f' then parseJsonStringBody (Char.ofNat 12 :: acc) cs2
        else if e = 'n' then parseJsonStringBody ('\n' :: acc) cs2
        else if e = 'r' then parseJsonStringBody ('\r' :: acc) cs2
        else if e = 't' then parseJsonStringBody ('\t' :: acc) cs2
        else if e = 'u' then
          match cs2 with
          | h1 :: h2 :: h3 :: h4 :: cs3 =>
            match parseHexDigit h1, parseHexDigit h2, parseHexDigit h3, parseHexDigit h4 with
            | some a, some b, some c2, some d =>
              parseJsonStringBody (Char.ofNat (((a * 16 + b) * 16 + c2) * 16 + d) :: acc) cs3
            | _, _, _, _ => .error "Bad unicode escape in JSON"
          | _ => .error "Bad unicode escape in JSON"
        else .error "Bad escape in JSON"
    else parseJsonStringBody (c :: acc) cs

/-- JSON number token: sign, integer digits, optional fraction, optional
exponent. The integer part may not have a leading zero unless it is exactly 0,
as in the JSON grammar JSON.parse enforces. Returns the token text and the
rest. -/
def parseJsonNumber (l : List Char) : Except String (List Char × List Char) :=
  let (sign, l1) :=
    match l with
    | '-' :: rest => (['-'], rest)
    | _ => (([] : List Char), l)
  match l1.takeWhile Char.isDigit with
  | [] => .error "Bad number in JSON"
  | '0' :: _ :: _ => .error "Bad number in JSON"
  | i :: is =>
    let l2 := l1.dropWhile Char.isDigit
    let step2 : Except String (List Char × List Char) :=
      match l2 with
      | '.' :: rest =>
        match rest.takeWhile Char.isDigit with
        | [] => .error "Bad number in JSON"
        | f :: fs => .ok ('.' :: f :: fs, rest.dropWhile Char.isDigit)
      | _ => .ok ([], l2)
    match step2 with
    | .error e => .error e
    | .ok (frac, l3) =>
      let step3 : Except String (List Char × List Char) :=
        match l3 with
        | 'e' :: rest => .ok (['e'], rest)
        | 'E' :: rest => .ok (['E'], rest)
        | _ => .ok ([], l3)
      match step3 with
      | .error e => .error e
      | .ok (emark, l4) =>
        if emark.isEmpty then .ok (sign ++ i :: is ++ frac, l4)
        else
          let (esign, l5) :=
            match l4 with
            | '+' :: rest => (['+'], rest)
            | '-' :: rest => (['-'], rest)
            | _ => (([] : List Char), l4)
          match l5.takeWhile Char.isDigit with
          | [] => .error "Bad number in JSON"
          | x :: xs => .ok (sign ++ i :: is ++ frac ++ emark ++ esign ++ x :: xs, l5.dropWhile Char.isDigit)

/-- Define one parsed object member. As with repeated CreateDataProperty in
JSON.parse, a duplicate key overwrites the earlier value in place (last value
wins, at the first occurrence position); a fresh key is appended. -/
def insertJsonField (acc : List (String × JsonVal)) (key : String) (v : JsonVal) :
    List (String × JsonVal) :=
  if acc.any (fun p => p.1 = key) then
    acc.map (fun p => if p.1 = key then (p.1, v) else p)
  else acc ++ [(key, v)]

mutual

/-- Recursive-descent JSON value parser; the fuel bounds the recursion and is
chosen large enough for the whole input where the parser is run. -/
def parseJsonValue : Nat → List Char → Except String (JsonVal × List Char)
  | 0, _ => .error "JSON nesting too deep"
  | fuel + 1, l =>
    match l.dropWhile jsonWSChar with
    | [] => .error "Unexpected end of JSON input"
    | c :: cs =>
      if c = '"' then
        match parseJsonStringBody [] cs with
        | .error e => .error e
        | .ok (s, rest) => .ok (JsonVal.str s, rest)
      else if c = lbraceChar then
        match cs.dropWhile jsonWSChar with
        | c2 :: cs2 =>
          if c2 = rbraceChar then .ok (JsonVal.obj [], cs2)
          else parseJsonMembers fuel [] cs
        | [] => .error "Unexpected end of JSON input"
      else if c = '[' then
        match cs.dropWhile jsonWSChar with
        | c2 :: cs2 =>
          if c2 = ']' then .ok (JsonVal.arr [], cs2)
          else parseJsonElems fuel [] cs
        | [] => .error "Unexpected end of JSON input"
      else if c = 't' then
        match cs with
        | 'r' :: 'u' :: 'e' :: rest => .ok (JsonVal.boolean true, rest)
        | _ => .error "Bad literal in JSON"
      else if c = 'f' then
        match cs with
        | 'a' :: 'l' :: 's' :: 'e' :: rest => .ok (JsonVal.boolean false, rest)
        | _ => .error "Bad literal in JSON"
      else if c = 'n' then
        match cs with
        | 'u' :: 'l' :: 'l' :: rest => .ok (JsonVal.null, rest)
        | _ => .error "Bad literal in JSON"
      else if c = '-' || c.isDigit then
        match parseJsonNumber (c :: cs) with
        | .error e => .error e
        | .ok (tok, rest) => .ok (JsonVal.num (String.mk tok), rest)
      else .error "Unexpected token in JSON"

/-- Members of a JSON object, after the opening bracket (at least one member);
duplicate keys collapse to the last value via insertJsonField. -/
def parseJsonMembers : Nat → List (String × JsonVal) → List Char → Except String (JsonVal × List Char)
  | 0, _, _ => .error "JSON nesting too deep"
  | fuel + 1, acc, l =>
    match l.dropWhile jsonWSChar with
    | [] => .error "Unexpected end of JSON input"
    | c :: cs =>
      if c = '"' then
        match parseJsonStringBody [] cs with
        | .error e => .error e
        | .ok (key, rest1) =>
          match rest1.dropWhile jsonWSChar with
          | ':' :: rest2 =>
            match parseJsonValue fuel rest2 with
            | .error e => .error e
            | .ok (v, rest3) =>
              match rest3.dropWhile jsonWSChar with
              | [] => .error "Unexpected end of JSON input"
              | c2 :: rest4 =>
                if c2 = ',' then parseJsonMembers fuel (insertJsonField acc key v) rest4
                else if c2 = rbraceChar then
                  .ok (JsonVal.obj (insertJsonField acc key v), rest4)
                else .error "Expected comma or end of object in JSON"
          | _ => .error "Expected colon in JSON object"
      else .error "Expected string key in JSON object"

/-- Elements of a JSON array, after the opening bracket (at least one element). -/
def parseJsonElems : Nat → List JsonVal → List Char → Except String (JsonVal × List Char)
  | 0, _, _ => .error "JSON nesting too deep"
  | fuel + 1, acc, l =>
    match parseJsonValue fuel l with
    | .error e => .error e
    | .ok (v, rest) =>
      match rest.dropWhile jsonWSChar with
      | [] => .error "Unexpected end of JSON input"
      | c :: rest2 =>
        if c = ',' then parseJsonElems fuel (acc ++ [v]) rest2
        else if c = ']' then .ok (JsonVal.arr (acc ++ [v]), rest2)
        else .error "Expected comma or end of array in JSON"

end

/-- JSON.parse model: parse one value with ample fuel and require only
whitespace after it. -/
def jsonParse (s : String) : Except String JsonVal :=
  match parseJsonValue (2 * s.data.length + 4) s.data with
  | .error e => .error e
  | .ok (v, rest) =>
    if rest.dropWhile jsonWSChar = [] then .ok v
    else .error "Unexpected non-whitespace character after JSON"

/-! ## api-client.ts -/

/-- The Q and A response shape (types.ts AccessibilityResponse). -/
structure AccessibilityResponse where
  answer : String
  explanation : String
  guidelines : String
  examples : String
deriving DecidableEq, Repr

/-- The fields of an axios error the client inspects: HTTP status of the
response (if any), the error code (if any) and the message. -/
structure AxiosError where
  status : Option Nat
  code : Option String
  message : String
deriving DecidableEq, Repr

/-- An error raised by the scan network call: either an axios error, or any
other thrown error, reduced to the message the handler will show (a thrown
non-Error value surfaces as the message "unknown error"). -/
inductive ScanCallError where
  | axios : AxiosError → ScanCallError
  | other : String → ScanCallError
deriving DecidableEq, Repr

/-- External calls a handler turn can make, with the payload sent. -/
inductive Call where
  | scanCall : String → Call
  | queryCall : String → JsonVal → Call
  | intentCall : String → Call
deriving Repr

/-- The message performAccessibilityScan rethrows for a failed axios call:
401 and 400 statuses and ECONNREFUSED get dedicated messages, anything else
propagates the original message. -/
def scanCallErrorMessage : ScanCallError → String
  | .axios e =>
    if e.status = some 401 then
      "Invalid or missing API key. Please check your API key in the extension settings."
    else if e.status = some 400 then
      "Invalid URL format or request. Please check the URL and try again."
    else if e.code = some "ECONNREFUSED" then
      "Could not connect to the API server. Please ensure it\x27s running."
    else e.message
  | .other m => m

/-- performAccessibilityScan: missing key or URL fail before any network call
(no Call is recorded); otherwise the network outcome is the oracle input and a
failure is mapped through scanCallErrorMessage. The Except message is what the
caller's catch will read from the thrown error. -/
def performAccessibilityScan (apiUrl apiKey target : String)
    (net : Except ScanCallError ScanResponse) :
    Option Call × Except String ScanResponse :=
  if apiKey = "" then
    (none, .error "API key not configured. Please set your API key in the extension settings.")
  else if apiUrl = "" then
    (none, .error "API URL not configured. Please set your API URL in the extension settings.")
  else
    match net with
    | .ok r => (some (Call.scanCall target), .ok r)
    | .error e => (some (Call.scanCall target), .error (scanCallErrorMessage e))

/-- query.startsWith(left curly bracket). -/
def startsWithBrace (s : String) : Bool :=
  match s.data with
  | [] => false
  | c :: _ => c = lbraceChar

/-- Result of queryAccessibilityApi: the body of the request that was posted
(none when no request was made) and the outcome the caller sees. -/
structure QueryCallResult where
  requestBody : Option JsonVal
  response : Except String AccessibilityResponse

/-- queryAccessibilityApi: a query whose first character is a left curly
bracket is parsed as JSON and posted as-is; any other query is wrapped as an
object with single field query. A JSON.parse failure is caught by the same
try/catch as a network failure, so it surfaces as "API request failed: ..."
with no request sent. The network outcome is the oracle argument. -/
def queryAccessibilityApi (apiUrl command apiKey query : String)
    (net : Except String AccessibilityResponse) : QueryCallResult :=
  match (if startsWithBrace query then jsonParse query
         else .ok (JsonVal.obj [("query", JsonVal.str query)])) with
  | .error e => ⟨none, .error ("API request failed: " ++ e)⟩
  | .ok body =>
    match net with
    | .ok r => ⟨some body, .ok r⟩
    | .error e => ⟨some body, .error ("API request failed: " ++ e)⟩

/-! ## formatAccessibilityResponse (formatters.ts) -/

/-- JavaScript s.trim() on strings. -/
def trimStr (s : String) : String := String.mk (trimChars s.data)

/-- A trimmed field, or the fallback if the trimmed field is empty. -/
def fieldOr (s fallback : String) : String :=
  if trimStr s = "" then fallback else trimStr s

/-- formatAccessibilityResponse. The runtime field-presence and type checks of
the source are vacuous on this typed model (all four fields exist and are
strings); the trim-with-fallback and section layout are kept. -/
def formatAccessibilityResponse (r : AccessibilityResponse) : String :=
  String.intercalate "\n"
    ["# Accessibility Response\n",
     "## 💡 Answer",
     fieldOr r.answer "No answer provided",
     "\n---\n",
     "## 📝 Detailed Explanation",
     fieldOr r.explanation "No explanation provided",
     "\n---\n",
     "## 📋 Guidelines Referenced",
     fieldOr r.guidelines "No guidelines provided",
     "\n---\n",
     "## 🔍 Implementation Examples",
     "```html",
     fieldOr r.examples "No examples provided",
     "```"]

/-! ## Session state and the explicit-command handler -/

/-- The globalState keys the handlers read and write. -/
structure SessionState where
  scanResults : List String
  detailedScanResults : DetailedScanResults
  previousCommands : List String
  apiUrl : String
  apiKey : String
deriving DecidableEq, Repr

/-- Environment of one handler turn: outcomes of the external collaborators
the turn may consult. urlParses models whether the WHATWG URL constructor
accepts the prompt (an external parser, not part of this repository). -/
structure Env where
  urlParses : Bool
  scanResult : Except ScanCallError ScanResponse
  queryResult : Except String AccessibilityResponse

/-- One handler turn: the markdown messages streamed, the state after the
turn, and the external calls made, in order. -/
structure StepResult where
  messages : List String
  state : SessionState
  calls : List Call

/-- A chat request: the slash command (if any) and the prompt. -/
structure ChatRequest where
  command : Option String
  prompt : String

/-- The numbered display of scan results: the summary line unnumbered, then
each following line prefixed with its index. -/
def numberedResults (results : List String) : String :=
  String.intercalate "\n\n"
    (results.enum.map (fun p => if p.1 = 0 then p.2 else toString p.1 ++ ". " ++ p.2))

/-- Guidance message of the scan case for an empty prompt. -/
def scanUsageMsg : String :=
  "⚠️ Please specify a URL to scan. Example: `/scan https://example.com`"

/-- Guidance message for a prompt the URL parser rejects. -/
def invalidUrlMsg : String :=
  "⚠️ Invalid URL format. Please provide a valid URL including the protocol (http:// or https://)"

/-- Progress message streamed before the scan call. -/
def scanningMsg (url : String) : String :=
  "🔍 Scanning " ++ url ++ " for accessibility issues..."

/-- Rendering of successful scan results. -/
def scanResultsMsg (formatted : String) : String :=
  "\n# Accessibility Scan Results\n\n" ++ formatted ++
  "\n\n> To fix an issue, use `/fix <issue number>`"

/-- Error message of the scan case. -/
def scanErrorMsg (m : String) : String :=
  "❌ Error during scan: " ++ m ++
  "\n\nPlease ensure:\n- The URL is accessible\n- Your API key is valid\n- The API server is running"

/-- Guidance message of the fix case when no scan results are stored. -/
def noScanResultsMsg : String :=
  "⚠️ No scan results available. Please run `/scan <url>` first."

/-- Guidance message of the fix case for a rejected issue number. -/
def invalidIssueMsg : String :=
  "⚠️ Invalid issue number. Please provide a valid issue number from the scan results."

/-- Guidance message when the violation record for the index is missing. -/
def missingDetailsMsg : String :=
  "⚠️ Could not find detailed information for this issue."

/-- Error message of the fix case. -/
def fixErrorMsg (m : String) : String :=
  "❌ Error processing fix request: " ++ m

/-- Guidance message of the explain case for an empty prompt. -/
def explainUsageMsg : String :=
  "⚠️ Please specify an issue or guideline to explain. Example: `/explain WCAG 2.1 AA`"

/-- Error message of the explain case. -/
def explainErrorMsg (m : String) : String :=
  "Error processing explanation request: " ++ m

/-- The query text the fix case sends, embedding the violation help and HTML
(whitespace mirrors the template literal of the source). -/
def fixQueryText (v : DetailedViolation) : String :=
  "Fix this accessibility issue:  \n                        Description: " ++ v.help ++
  "\n                        HTML Context: " ++ v.html

/-- The message the fix and explain cases show for a query call outcome. -/
def queryOutcomeMessage (errWrap : String → String) (r : QueryCallResult) : String :=
  match r.response with
  | .ok resp => formatAccessibilityResponse resp
  | .error m => errWrap m

/-- The calls a query-call outcome contributes (one posted request, or none
when JSON.parse failed before the post). -/
def queryCalls (command : String) (r : QueryCallResult) : List Call :=
  match r.requestBody with
  | some b => [Call.queryCall command b]
  | none => []

/-- Scan case of the explicit-command handler. -/
def handlerV1scan (prompt : String) (env : Env) (st : SessionState) : StepResult :=
  if prompt = "" then ⟨[scanUsageMsg], st, []⟩
  else if env.urlParses = false then ⟨[invalidUrlMsg], st, []⟩
  else
    match performAccessibilityScan st.apiUrl st.apiKey prompt env.scanResult with
    | (calls, .ok resp) =>
      { messages := [scanningMsg prompt,
                     scanResultsMsg (numberedResults (formatScanResults resp))],
        state := { st with detailedScanResults := extractDetailedScanResults resp,
                           scanResults := formatScanResults resp },
        calls := calls.toList }
    | (calls, .error m) =>
      ⟨[scanningMsg prompt, scanErrorMsg m], st, calls.toList⟩

/-- Fix case of the explicit-command handler: guard on stored scan results,
parse the prompt as an integer, bound it by the number of display lines, look
up the violation (index minus one, for the summary line), then query the fix
endpoint. -/
def handlerV1fix (prompt : String) (env : Env) (st : SessionState) : StepResult :=
  if st.scanResults.length = 0 then ⟨[noScanResultsMsg], st, []⟩
  else
    match parseIntJS prompt with
    | none => ⟨[invalidIssueMsg], st, []⟩
    | some fixIndex =>
      if fixIndex < 0 ∨ fixIndex ≥ (st.scanResults.length : Int) then
        ⟨[invalidIssueMsg], st, []⟩
      else
        match violationAt st.detailedScanResults fixIndex with
        | none => ⟨[missingDetailsMsg], st, []⟩
        | some v =>
          ⟨[queryOutcomeMessage fixErrorMsg
              (queryAccessibilityApi st.apiUrl "fix" st.apiKey (fixQueryText v) env.queryResult)],
           st,
           queryCalls "fix"
             (queryAccessibilityApi st.apiUrl "fix" st.apiKey (fixQueryText v) env.queryResult)⟩

/-- Explain case of the explicit-command handler (also the default case). -/
def handlerV1explain (prompt : String) (env : Env) (st : SessionState) : StepResult :=
  if prompt = "" then ⟨[explainUsageMsg], st, []⟩
  else
    ⟨[queryOutcomeMessage explainErrorMsg
        (queryAccessibilityApi st.apiUrl "explain" st.apiKey prompt env.queryResult)],
     st,
     queryCalls "explain"
       (queryAccessibilityApi st.apiUrl "explain" st.apiKey prompt env.queryResult)⟩

/-- The explicit-command chat handler: switch on request.command with scan,
fix, and explain-or-default cases. The handler is a total function of the
request, the collaborator outcomes and the stored state, so no input makes it
fault at runtime. -/
def handlerV1 (req : ChatRequest) (env : Env) (st : SessionState) : StepResult :=
  match req.command with
  | some cmd =>
    if cmd = "scan" then handlerV1scan req.prompt env st
    else if cmd = "fix" then handlerV1fix req.prompt env st
    else handlerV1explain req.prompt env st
  | none => handlerV1explain req.prompt env st

/-! ## Command history update (intent-analysis handler variants) -/

/-- previousCommands.push(command) followed by storing slice(-10): append the
resolved command, then keep the last ten entries (slice with a negative start
keeps the suffix of that length). -/
def updateHistory (prev : List String) (cmd : String) : List String :=
  (prev ++ [cmd]).drop ((prev ++ [cmd]).length - 10)

/-! ## Claim-side predicates for URL occurrence -/

/-- A well-formed absolute URL token occurs somewhere in the list: the scheme
http:// or https:// followed by at least one non-whitespace character. -/
def urlOccurs (l : List Char) : Prop :=
  ∃ pre c rest, isWS c = false ∧
    (l = pre ++ ('h' :: 't' :: 't' :: 'p' :: ':' :: '/' :: '/' :: c :: rest) ∨
     l = pre ++ ('h' :: 't' :: 't' :: 'p' :: 's' :: ':' :: '/' :: '/' :: c :: rest))

/-- Shape of a URL token as the regex produces it: one of the two schemes
followed by at least one character, with no whitespace after the scheme. -/
def isUrlTok : List Char → Bool
  | 'h' :: 't' :: 't' :: 'p' :: ':' :: '/' :: '/' :: c :: cs =>
    (c :: cs).all (fun x => !isWS x)
  | 'h' :: 't' :: 't' :: 'p' :: 's' :: ':' :: '/' :: '/' :: c :: cs =>
    (c :: cs).all (fun x => !isWS x)
  | _ => false


/-! ## Concrete fixtures for the ordering and round-trip theorems -/

/-- A concrete critical issue. -/
def issueCritical : RawIssue :=
  ⟨"image-alt", "Images must have alternate text",
   "Images must have alternate text", "<img src=pic>", "critical"⟩

/-- A concrete minor issue. -/
def issueMinor : RawIssue :=
  ⟨"region", "Content should be contained by landmarks",
   "Content should be contained by landmarks", "<div>x</div>", "minor"⟩

/-- A scan response whose raw_violations object lists the minor entry before
the critical entry. -/
def respMinorFirst : ScanResponse :=
  ⟨"https://site.example", "2 issues found",
   [("minor", [issueMinor]), ("critical", [issueCritical])]⟩

/-- A scan response whose raw_violations object lists the critical entry
before the minor entry. -/
def respCriticalFirst : ScanResponse :=
  ⟨"https://site.example", "2 issues found",
   [("critical", [issueCritical]), ("minor", [issueMinor])]⟩

/-- A session state holding one scan-result display line plus summary, and
the matching single stored violation. -/
def stOneViolation : SessionState :=
  ⟨["📊 1 issue found", "🔴 [CRITICAL] Images must have alternate text"],
   ⟨"1 issue found",
    [⟨"image-alt", "Images must have alternate text", "<img src=pic>"⟩]⟩,
   [], "http://localhost:8000", "sk-key"⟩

/-- A session state with no stored scan results. -/
def stEmpty : SessionState :=
  ⟨[], ⟨"", []⟩, [], "http://localhost:8000", "sk-key"⟩

/-- An environment whose collaborators all fail. -/
def envAllFail : Env :=
  ⟨false, .error (.other "network down"), .error "network down"⟩

/-- An environment that accepts the URL and returns the critical-first scan
response. -/
def envScanOkCritical : Env :=
  ⟨true, .ok respCriticalFirst, .error "unused"⟩

/-- An environment that accepts the URL and returns the minor-first scan
response. -/
def envScanOkMinor : Env :=
  ⟨true, .ok respMinorFirst, .error "unused"⟩

/-- An environment that accepts the URL and fails the scan with an
authentication failure. -/
def envScanAuthFail : Env :=
  ⟨true, .error (.axios ⟨some 401, none, "Request failed with status code 401"⟩),
   .error "unused"⟩

/-! # Theorems -/

/-- Every element a takeWhile keeps satisfies the predicate. -/
theorem all_takeWhile_self {α : Type} (p : α → Bool) (l : List α) :
    (l.takeWhile p).all p = true := by
  induction l with
  | nil => rfl
  | cons a l ih =>
    by_cases h : p a = true
    · simp [List.takeWhile_cons, h, ih]
    · simp [List.takeWhile_cons, h]

/-- The URL regex anchors at a list that starts with http:// followed by a
non-whitespace character, and matches the scheme plus the maximal
non-whitespace run. -/
theorem matchUrlAt_http (c : Char) (rest : List Char) (h : isWS c = false) :
    matchUrlAt ('h' :: 't' :: 't' :: 'p' :: ':' :: '/' :: '/' :: c :: rest) =
      some ('h' :: 't' :: 't' :: 'p' :: ':' :: '/' :: '/' :: c ::
        rest.takeWhile (fun x => !isWS x)) := by
  simp [matchUrlAt, List.takeWhile_cons, h]

/-- Same for the https:// scheme. -/
theorem matchUrlAt_https (c : Char) (rest : List Char) (h : isWS c = false) :
    matchUrlAt ('h' :: 't' :: 't' :: 'p' :: 's' :: ':' :: '/' :: '/' :: c :: rest) =
      some ('h' :: 't' :: 't' :: 'p' :: 's' :: ':' :: '/' :: '/' :: c ::
        rest.takeWhile (fun x => !isWS x)) := by
  simp [matchUrlAt, List.takeWhile_cons, h]

/-- If the regex anchors at some position, the leftmost scan succeeds. -/
theorem firstUrlTokenAux_isSome_append (pre tail : List Char)
    (h : (matchUrlAt tail).isSome = true) :
    (firstUrlTokenAux (pre ++ tail)).isSome = true := by
  induction pre with
  | nil =>
    cases tail with
    | nil => simp [matchUrlAt] at h
    | cons a cs =>
      cases hm : matchUrlAt (a :: cs) with
      | none => rw [hm] at h; simp at h
      | some t => simp [firstUrlTokenAux, hm]
  | cons a pre ih =>
    show (firstUrlTokenAux (a :: (pre ++ tail))).isSome = true
    cases hm : matchUrlAt (a :: (pre ++ tail)) with
    | none => simpa [firstUrlTokenAux, hm] using ih
    | some t => simp [firstUrlTokenAux, hm]

/-- A well-formed URL occurrence guarantees the leftmost URL scan succeeds. -/
theorem firstUrlTokenAux_isSome_of_occurs (l : List Char) (h : urlOccurs l) :
    (firstUrlTokenAux l).isSome = true := by
  obtain ⟨pre, c, rest, hc, hl | hl⟩ := h
  · subst hl
    exact firstUrlTokenAux_isSome_append pre _ (by rw [matchUrlAt_http c rest hc]; rfl)
  · subst hl
    exact firstUrlTokenAux_isSome_append pre _ (by rw [matchUrlAt_https c rest hc]; rfl)


/-- Soundness of the anchored match: the match is an initial segment of the
input and has URL-token shape. -/
theorem matchUrlAt_sound (l t : List Char) (h : matchUrlAt l = some t) :
    (∃ post, l = t ++ post) ∧ isUrlTok t = true := by
  unfold matchUrlAt at h
  split at h
  · rename_i rest
    split at h
    · exact absurd h (by simp)
    · rename_i c cs heq
      injection h with h
      subst h
      refine ⟨⟨rest.dropWhile (fun x => !isWS x), ?_⟩, ?_⟩
      · simp only [List.cons_append, List.nil_append, List.cons.injEq, true_and]
        have h2 := List.takeWhile_append_dropWhile (fun x => !isWS x) rest
        rw [heq] at h2
        simpa using h2.symm
      · show isUrlTok _ = true
        simp only [isUrlTok]
        rw [← heq]
        exact all_takeWhile_self _ rest
  · rename_i rest
    split at h
    · exact absurd h (by simp)
    · rename_i c cs heq
      injection h with h
      subst h
      refine ⟨⟨rest.dropWhile (fun x => !isWS x), ?_⟩, ?_⟩
      · simp only [List.cons_append, List.nil_append, List.cons.injEq, true_and]
        have h2 := List.takeWhile_append_dropWhile (fun x => !isWS x) rest
        rw [heq] at h2
        simpa using h2.symm
      · show isUrlTok _ = true
        simp only [isUrlTok]
        rw [← heq]
        exact all_takeWhile_self _ rest
  · exact absurd h (by simp)

/-- Soundness of the leftmost scan: the returned token occurs in the input and
has URL-token shape. -/
theorem firstUrlTokenAux_sound (l t : List Char) (h : firstUrlTokenAux l = some t) :
    (∃ pre post, l = pre ++ t ++ post) ∧ isUrlTok t = true := by
  induction l with
  | nil => simp [firstUrlTokenAux] at h
  | cons a cs ih =>
    cases hm : matchUrlAt (a :: cs) with
    | some u =>
      simp only [firstUrlTokenAux, hm] at h
      injection h with h
      subst h
      obtain ⟨⟨post, hp⟩, hshape⟩ := matchUrlAt_sound _ _ hm
      exact ⟨⟨[], post, by simpa using hp⟩, hshape⟩
    | none =>
      simp only [firstUrlTokenAux, hm] at h
      obtain ⟨⟨pre, post, hp⟩, hshape⟩ := ih h
      exact ⟨⟨a :: pre, post, by simp [hp]⟩, hshape⟩

/-- C1 (amended): detectIntent lowercases and trims the utterance before
matching, so for every utterance whose normalised form contains a well-formed
absolute URL token, detectIntent returns the scan intent carrying the first
URL token of that normalised form, regardless of any co-occurring fix or
explain keywords (the URL branch is checked before every other heuristic, so
no keyword hypothesis appears); the token returned occurs in the normalised
utterance and has URL shape. The exact token as typed is returned whenever it
is already lowercase. -/
theorem c1_url_precedence (q : String) (h : urlOccurs (normData q)) :
    ∃ t : List Char,
      firstUrlTokenAux (normData q) = some t ∧
      detectIntent q = ⟨"scan", String.mk t⟩ ∧
      isUrlTok t = true ∧
      ∃ pre post, normData q = pre ++ t ++ post := by
  have hs := firstUrlTokenAux_isSome_of_occurs _ h
  obtain ⟨t, ht⟩ := Option.isSome_iff_exists.mp hs
  obtain ⟨⟨pre, post, hp⟩, hshape⟩ := firstUrlTokenAux_sound _ _ ht
  refine ⟨t, ht, ?_, hshape, pre, post, hp⟩
  simp [detectIntent, ht]

/-- C1 counterexample: the utterance contains the well-formed URL token
http://Example.com (the leftmost URL match on the raw utterance), yet
detectIntent returns a different url, its lowercased form — so the claim that
the exact token of the utterance is carried is false at this input. -/
theorem c1_counterexample :
    firstUrlToken "see http://Example.com" = some "http://Example.com" ∧
    detectIntent "see http://Example.com" =
      ⟨"scan", "http://example.com"⟩ ∧
    "http://example.com" ≠ "http://Example.com" :=
  ⟨rfl, rfl, by decide⟩

/-- C1 witness: a concrete utterance combining a fix keyword with a URL still
resolves to scan with the URL token. -/
theorem c1_witness :
    urlOccurs (normData "please fix https://a.b now") ∧
    (∃ t : List Char,
      firstUrlTokenAux (normData "please fix https://a.b now") = some t ∧
      detectIntent "please fix https://a.b now" = ⟨"scan", String.mk t⟩ ∧
      isUrlTok t = true ∧
      ∃ pre post, normData "please fix https://a.b now" = pre ++ t ++ post) :=
  ⟨⟨"please fix ".data, 'a', ".b now".data, by decide, Or.inr (by decide)⟩,
   c1_url_precedence _
     ⟨"please fix ".data, 'a', ".b now".data, by decide, Or.inr (by decide)⟩⟩

/-- Soundness of the leftmost bare-integer match: the captured run is a
non-empty digit run occurring in the input. -/
theorem firstBareIntAux_sound (l : List Char) (ds : List Char) :
    ∀ pw, firstBareIntAux pw l = some ds →
      ds ≠ [] ∧ ds.all Char.isDigit = true ∧ ∃ pre post, l = pre ++ ds ++ post := by
  induction l with
  | nil => intro pw h; simp [firstBareIntAux] at h
  | cons c cs ih =>
    intro pw h
    simp only [firstBareIntAux] at h
    split at h
    · rename_i hcond
      injection h with h
      subst h
      have hdig : c.isDigit = true := by
        simp only [Bool.and_eq_true] at hcond
        exact hcond.1.2
      refine ⟨by simp, ?_, [], cs.dropWhile Char.isDigit, ?_⟩
      · simp only [List.all_cons, hdig, Bool.true_and]
        exact all_takeWhile_self _ cs
      · simp only [List.nil_append, List.cons_append, List.cons.injEq, true_and]
        exact (List.takeWhile_append_dropWhile _ _).symm
    · obtain ⟨hne, hall, pre, post, hp⟩ := ih _ h
      exact ⟨hne, hall, c :: pre, post, by simp [hp]⟩

/-- C2: with no URL token in the normalised utterance, a fix keyword or a bare
integer token makes detectIntent resolve to the fix command carrying the whole
normalised utterance; the fix handler then extracts as issue index the first
bare integer of that content (a non-empty digit run occurring in the
utterance), and when no bare integer exists the extracted index is -1, which
the guard isNaN || index < 0 || index >= length rejects for every state, so no
fix intent with an index is ever dispatched — the no-issue-number rejection of
the spec. -/
theorem c2_fix_resolution (q : String)
    (hurl : firstUrlTokenAux (normData q) = none)
    (hsig : kwHit (normData q) = true ∨ (firstBareIntAux false (normData q)).isSome = true) :
    detectIntent q = ⟨"fix", String.mk (normData q)⟩ ∧
    (∀ ds, firstBareIntAux false (normData q) = some ds →
      extractFixIndex (String.mk (normData q)) = Int.ofNat (digitsToNat ds) ∧
      ds ≠ [] ∧ ds.all Char.isDigit = true ∧
      ∃ pre post, normData q = pre ++ ds ++ post) ∧
    (firstBareIntAux false (normData q) = none →
      extractFixIndex (String.mk (normData q)) = -1 ∧
      ∀ n : Nat, fixIndexGuard (-1) n = true) := by
  have htest : fixRegexTest (normData q) = true := by
    cases hsig with
    | inl h => simp [fixRegexTest, h]
    | inr h => simp [fixRegexTest, h]
  refine ⟨by simp [detectIntent, hurl, htest], ?_, ?_⟩
  · intro ds hds
    obtain ⟨hne, hall, pre, post, hp⟩ := firstBareIntAux_sound _ _ _ hds
    exact ⟨by simp [extractFixIndex, firstBareInt, hds], hne, hall, pre, post, hp⟩
  · intro hnone
    refine ⟨by simp [extractFixIndex, firstBareInt, hnone], ?_⟩
    intro n
    have hlt : ((-1 : Int) < 0) := by norm_num
    simp [fixIndexGuard, hlt]

/-- C2 witness: the utterance of the spec example resolves to fix, and its
extracted index is the first bare integer. -/
theorem c2_witness :
    (firstUrlTokenAux (normData "fix issue 3") = none ∧
     kwHit (normData "fix issue 3") = true) ∧
    (detectIntent "fix issue 3" = ⟨"fix", String.mk (normData "fix issue 3")⟩ ∧
    (∀ ds, firstBareIntAux false (normData "fix issue 3") = some ds →
      extractFixIndex (String.mk (normData "fix issue 3")) = Int.ofNat (digitsToNat ds) ∧
      ds ≠ [] ∧ ds.all Char.isDigit = true ∧
      ∃ pre post, normData "fix issue 3" = pre ++ ds ++ post) ∧
    (firstBareIntAux false (normData "fix issue 3") = none →
      extractFixIndex (String.mk (normData "fix issue 3")) = -1 ∧
      ∀ n : Nat, fixIndexGuard (-1) n = true)) :=
  ⟨⟨by decide, by decide⟩,
   c2_fix_resolution "fix issue 3" (by decide) (Or.inl (by decide))⟩

/-- The forEach/push loop over severity entries is an append of the per-entry
lines, in entry order; the length-positive guard only skips empty arrays. -/
theorem foldl_guarded_append {α β γ : Type} (F : α → β → γ) :
    ∀ (l : List (α × List β)) (init : List γ),
      l.foldl (fun acc p => if p.2.length > 0 then acc ++ p.2.map (F p.1) else acc) init
        = init ++ l.bind (fun p => p.2.map (F p.1)) := by
  intro l
  induction l with
  | nil => intro init; simp
  | cons p l ih =>
    intro init
    by_cases h : p.2.length > 0
    · simp only [List.foldl_cons, h, if_true, List.cons_bind, ih, List.append_assoc]
    · have hnil : p.2 = [] := List.length_eq_zero.mp (by omega)
      simp [List.foldl_cons, h, hnil, ih]

/-- formatScanResults is the summary line followed by one display line per
severity-annotated issue, in iteration order. -/
theorem formatScanResults_eq (r : ScanResponse) :
    formatScanResults r =
      ("📊 " ++ r.scan_result) :: (severityAnnotated r).map (fun q => violationLine q.1 q.2) := by
  unfold formatScanResults severityAnnotated
  rw [foldl_guarded_append]
  rw [List.map_bind]
  simp only [List.map_map, List.singleton_append, List.nil_append]
  rfl

/-- extractDetailedScanResults keeps one violation record per
severity-annotated issue, in the same iteration order. -/
theorem extract_violations_eq (r : ScanResponse) :
    (extractDetailedScanResults r).violations =
      (severityAnnotated r).map (fun q => toDetailedViolation q.2) := by
  unfold extractDetailedScanResults severityAnnotated
  show List.foldl _ [] _ = _
  rw [foldl_guarded_append (fun _ i => toDetailedViolation i)]
  rw [List.map_bind]
  simp only [List.map_map, List.singleton_append, List.nil_append]
  rfl

/-- C9: formatScanResults and extractDetailedScanResults traverse the
violations identically: the formatted list is the summary line at index 0
followed by exactly one display line per violation in the same order, so its
length is the violation count plus one, and for each valid display index n the
line at n and the violation at n-1 come from the same severity-annotated
issue. -/
theorem c9_format_extract_aligned (r : ScanResponse) :
    (formatScanResults r).length = (extractDetailedScanResults r).violations.length + 1 ∧
    (formatScanResults r).get? 0 = some ("📊 " ++ r.scan_result) ∧
    ∀ n, 1 ≤ n → n ≤ (extractDetailedScanResults r).violations.length →
      ∃ sev issue,
        (severityAnnotated r).get? (n - 1) = some (sev, issue) ∧
        (formatScanResults r).get? n = some (violationLine sev issue) ∧
        (extractDetailedScanResults r).violations.get? (n - 1) =
          some (toDetailedViolation issue) := by
  rw [formatScanResults_eq, extract_violations_eq]
  refine ⟨by simp, by simp, ?_⟩
  intro n h1 h2
  obtain ⟨m, rfl⟩ : ∃ m, n = m + 1 := ⟨n - 1, by omega⟩
  simp only [Nat.add_sub_cancel]
  have hlen : m < (severityAnnotated r).length := by
    rw [List.length_map] at h2; omega
  have hget := List.get?_eq_get hlen
  refine ⟨((severityAnnotated r).get ⟨m, hlen⟩).1, ((severityAnnotated r).get ⟨m, hlen⟩).2,
    ?_, ?_, ?_⟩
  · rw [hget]
  · rw [List.get?_cons_succ, List.get?_map, hget]
    rfl
  · rw [List.get?_map, hget]
    rfl

/-- C9 witness: line 1 of the two-issue response describes violation 0. -/
theorem c9_witness :
    1 ≤ 1 ∧ 1 ≤ (extractDetailedScanResults respCriticalFirst).violations.length ∧
    (∃ sev issue,
      (severityAnnotated respCriticalFirst).get? 0 = some (sev, issue) ∧
      (formatScanResults respCriticalFirst).get? 1 = some (violationLine sev issue) ∧
      (extractDetailedScanResults respCriticalFirst).violations.get? 0 =
        some (toDetailedViolation issue)) :=
  ⟨by decide, by decide,
   (c9_format_extract_aligned respCriticalFirst).2.2 1 (by decide) (by decide)⟩

/-- C3 counterexample: extractDetailedScanResults iterates the raw_violations
entries in the order the response object lists them, not in the fixed severity
order; a response listing minor before critical yields the minor violation
first, the opposite of the fixed-order sequence. -/
theorem c3_counterexample :
    (extractDetailedScanResults respMinorFirst).violations =
      [toDetailedViolation issueMinor, toDetailedViolation issueCritical] ∧
    specOrderedViolations respMinorFirst =
      [toDetailedViolation issueCritical, toDetailedViolation issueMinor] ∧
    toDetailedViolation issueMinor ≠ toDetailedViolation issueCritical :=
  ⟨by decide, by decide, by decide⟩

/-- C3 (amended): the derived violation sequence concatenates the response
entries in the order the response object lists them, preserving the returned
order within each severity; for a response whose entries come as critical then
minor with one violation each, the derived order is those two violations in
that order, and the fix lookup maps index 1 to the first and index 2 to the
second. -/
theorem c3_entry_order :
    (∀ r : ScanResponse, (extractDetailedScanResults r).violations =
        r.raw_violations.bind (fun p => p.2.map toDetailedViolation)) ∧
    (extractDetailedScanResults respCriticalFirst).violations =
      [toDetailedViolation issueCritical, toDetailedViolation issueMinor] ∧
    violationAt (extractDetailedScanResults respCriticalFirst) 1 =
      some (toDetailedViolation issueCritical) ∧
    violationAt (extractDetailedScanResults respCriticalFirst) 2 =
      some (toDetailedViolation issueMinor) := by
  refine ⟨?_, by decide, by decide, by decide⟩
  intro r
  rw [extract_violations_eq]
  unfold severityAnnotated
  rw [List.map_bind]
  simp only [List.map_map]
  rfl

/-- One history update never leaves more than ten entries. -/
theorem updateHistory_length_le (prev : List String) (cmd : String) :
    (updateHistory prev cmd).length ≤ 10 := by
  unfold updateHistory
  rw [List.length_drop]
  omega

/-- Keeping the last ten of a list already truncated to its last ten, extended
on the right, is keeping the last ten of the untruncated extension. -/
theorem takeLast10_compose {α : Type} (a b : List α) :
    (a.drop (a.length - 10) ++ b).drop ((a.drop (a.length - 10) ++ b).length - 10) =
      (a ++ b).drop ((a ++ b).length - 10) := by
  rw [List.drop_append_eq_append_drop, List.drop_append_eq_append_drop, List.drop_drop]
  simp only [List.length_append, List.length_drop]
  congr 1
  · congr 1
    omega
  · congr 1
    omega

/-- Folding history updates from a bounded start keeps the last ten of the
start extended by all appended commands. -/
theorem foldl_updateHistory_of_le (cmds : List String) :
    ∀ init : List String, init.length ≤ 10 →
      List.foldl updateHistory init cmds = (init ++ cmds).drop ((init ++ cmds).length - 10) := by
  induction cmds with
  | nil =>
    intro init h
    simp only [List.foldl_nil, List.append_nil]
    rw [show init.length - 10 = 0 by omega]
    rfl
  | cons c cs ih =>
    intro init h
    rw [List.foldl_cons, ih (updateHistory init c) (updateHistory_length_le init c)]
    have hu : updateHistory init c = (init ++ [c]).drop ((init ++ [c]).length - 10) := rfl
    rw [hu, takeLast10_compose (init ++ [c]) cs, List.append_assoc, List.singleton_append]

/-- The last ten of an extension on the right by at least ten elements is the
last ten of the extension alone. -/
theorem takeLast10_append_right {α : Type} (x b : List α) (hb : 10 ≤ b.length) :
    (x ++ b).drop ((x ++ b).length - 10) = b.drop (b.length - 10) := by
  rw [List.drop_append_eq_append_drop, List.length_append]
  rw [List.drop_eq_nil_of_le (by omega)]
  simp only [List.nil_append]
  congr 1
  omega

/-- C5: the command history never exceeds ten entries after any update (append
then truncate, oldest dropped first), and appending fifteen resolved commands
sequentially from any starting history leaves exactly the last ten appended
commands, in order. -/
theorem c5_history_bounded :
    (∀ (prev : List String) (cmd : String), (updateHistory prev cmd).length ≤ 10) ∧
    (∀ (init cmds : List String), cmds.length = 15 →
      List.foldl updateHistory init cmds = cmds.drop 5 ∧
      (List.foldl updateHistory init cmds).length = 10) := by
  refine ⟨updateHistory_length_le, ?_⟩
  intro init cmds h15
  cases cmds with
  | nil => simp at h15
  | cons c cs =>
    have hcs : cs.length = 14 := by
      simpa using h15
    have key : List.foldl updateHistory init (c :: cs) = cs.drop 4 := by
      rw [List.foldl_cons,
        foldl_updateHistory_of_le cs (updateHistory init c) (updateHistory_length_le init c),
        takeLast10_append_right _ cs (by omega), hcs]
    refine ⟨?_, ?_⟩
    · rw [key, List.drop_succ_cons]
    · rw [key, List.length_drop]
      omega

/-- C5 witness: fifteen concrete commands leave exactly the last ten. -/
theorem c5_witness :
    (["a1", "a2", "a3", "a4", "a5", "a6", "a7", "a8", "a9", "a10",
      "a11", "a12", "a13", "a14", "a15"] : List String).length = 15 ∧
    (List.foldl updateHistory []
        ["a1", "a2", "a3", "a4", "a5", "a6", "a7", "a8", "a9", "a10",
         "a11", "a12", "a13", "a14", "a15"] =
      ["a6", "a7", "a8", "a9", "a10", "a11", "a12", "a13", "a14", "a15"] ∧
     (List.foldl updateHistory []
        ["a1", "a2", "a3", "a4", "a5", "a6", "a7", "a8", "a9", "a10",
         "a11", "a12", "a13", "a14", "a15"]).length = 10) := by
  refine ⟨by decide, ?_⟩
  have h := c5_history_bounded.2 []
    ["a1", "a2", "a3", "a4", "a5", "a6", "a7", "a8", "a9", "a10",
     "a11", "a12", "a13", "a14", "a15"] (by decide)
  exact ⟨h.1.trans (by rfl), h.2⟩

/-- The dispatcher routes an explicit fix command to the fix case. -/
theorem handlerV1_fix_eq (p : String) (env : Env) (st : SessionState) :
    handlerV1 ⟨some "fix", p⟩ env st = handlerV1fix p env st := rfl

/-- C4: for every fix dispatch whose parsed issue index lies outside
[1, number of stored violations] — index 0, negative indices, and indices past
the end — the handler returns one guidance message (no scan results, invalid
issue number, or missing details, depending on which guard fires), makes no
external call, and leaves the stored state unchanged. The handler is a total
function, so no such index faults at runtime: index 0 and stale indices fall
through the display-length bound but fail the violations[index-1] lookup,
which the handler guards. -/
theorem c4_fix_out_of_range (st : SessionState) (env : Env) (p : String) (k : Int)
    (hp : parseIntJS p = some k)
    (hk : k < 1 ∨ k > (st.detailedScanResults.violations.length : Int)) :
    (handlerV1 ⟨some "fix", p⟩ env st).state = st ∧
    (handlerV1 ⟨some "fix", p⟩ env st).calls = [] ∧
    ((handlerV1 ⟨some "fix", p⟩ env st).messages = [noScanResultsMsg] ∨
     (handlerV1 ⟨some "fix", p⟩ env st).messages = [invalidIssueMsg] ∨
     (handlerV1 ⟨some "fix", p⟩ env st).messages = [missingDetailsMsg]) := by
  rw [handlerV1_fix_eq]
  unfold handlerV1fix
  rw [hp]
  by_cases h0 : st.scanResults.length = 0
  · simp [h0]
  · simp only [h0, if_false]
    by_cases hguard : k < 0 ∨ k ≥ (st.scanResults.length : Int)
    · simp [hguard]
    · have hva : violationAt st.detailedScanResults k = none := by
        unfold violationAt
        push_neg at hguard
        rcases hk with hk1 | hk2
        · have : k = 0 := by omega
          subst this
          norm_num
        · rw [if_neg (by omega)]
          rw [List.get?_eq_none]
          omega
      simp [hguard, hva]

/-- C4 witness: index 5 against a single stored violation is rejected with
guidance, no call, unchanged state. -/
theorem c4_witness :
    parseIntJS "5" = some 5 ∧
    ((5 : Int) < 1 ∨ (5 : Int) > (stOneViolation.detailedScanResults.violations.length : Int)) ∧
    ((handlerV1 ⟨some "fix", "5"⟩ envAllFail stOneViolation).state = stOneViolation ∧
     (handlerV1 ⟨some "fix", "5"⟩ envAllFail stOneViolation).calls = [] ∧
     ((handlerV1 ⟨some "fix", "5"⟩ envAllFail stOneViolation).messages = [noScanResultsMsg] ∨
      (handlerV1 ⟨some "fix", "5"⟩ envAllFail stOneViolation).messages = [invalidIssueMsg] ∨
      (handlerV1 ⟨some "fix", "5"⟩ envAllFail stOneViolation).messages = [missingDetailsMsg])) :=
  ⟨by decide, Or.inr (by decide),
   c4_fix_out_of_range stOneViolation envAllFail "5" 5 (by decide) (Or.inr (by decide))⟩

/-- C6 (amended): an explicit fix command whose remainder parseInt cannot
parse is rejected with guidance and no fix query is sent; the surfaced message
is the invalid-issue-number guidance when scan results are present, but when
no scan results are stored the no-scan-results guidance preempts the number
check. In both cases the state is unchanged and no external call is made. -/
theorem c6_fix_not_a_number (st : SessionState) (env : Env) (p : String)
    (hp : parseIntJS p = none) :
    handlerV1 ⟨some "fix", p⟩ env st =
      ⟨[if st.scanResults.length = 0 then noScanResultsMsg else invalidIssueMsg], st, []⟩ := by
  rw [handlerV1_fix_eq]
  unfold handlerV1fix
  rw [hp]
  by_cases h0 : st.scanResults.length = 0
  · simp [h0]
  · simp [h0]

/-- C6 counterexample: with no stored scan results, the non-numeric remainder
abc is answered with the no-scan-results guidance, not the invalid-issue-number
guidance the claim states — the not-a-number rejection is preempted. No fix
query is sent either way. -/
theorem c6_counterexample :
    parseIntJS "abc" = none ∧
    handlerV1 ⟨some "fix", "abc"⟩ envAllFail stEmpty = ⟨[noScanResultsMsg], stEmpty, []⟩ ∧
    noScanResultsMsg ≠ invalidIssueMsg :=
  ⟨rfl, rfl, by decide⟩

/-- C6 witness: with stored scan results, the non-numeric remainder abc gets
the invalid-issue-number guidance and no call. -/
theorem c6_witness :
    parseIntJS "abc" = none ∧
    handlerV1 ⟨some "fix", "abc"⟩ envAllFail stOneViolation =
      ⟨[if stOneViolation.scanResults.length = 0 then noScanResultsMsg else invalidIssueMsg],
       stOneViolation, []⟩ :=
  ⟨by decide, c6_fix_not_a_number stOneViolation envAllFail "abc" (by decide)⟩

/-- A successful scan turn: the scanning and results messages are streamed,
the stored scan results and detailed record are replaced with the ones derived
from the response, and one scan call is made. -/
theorem handlerV1_scan_ok (p : String) (env : Env) (st : SessionState) (resp : ScanResponse)
    (hp : p ≠ "") (hurl : env.urlParses = true) (hnet : env.scanResult = .ok resp)
    (hkey : st.apiKey ≠ "") (hapi : st.apiUrl ≠ "") :
    handlerV1 ⟨some "scan", p⟩ env st =
      ⟨[scanningMsg p, scanResultsMsg (numberedResults (formatScanResults resp))],
       { st with detailedScanResults := extractDetailedScanResults resp,
                 scanResults := formatScanResults resp },
       [Call.scanCall p]⟩ := by
  have hb : handlerV1 ⟨some "scan", p⟩ env st = handlerV1scan p env st := rfl
  rw [hb]
  unfold handlerV1scan performAccessibilityScan
  rw [hurl, hnet]
  simp [hp, hkey, hapi]

/-- C7: a successful scan replaces the stored scan record wholesale; after
scan A succeeds and then scan B succeeds, the state equals the record derived
from B's response alone (no merge with A's), so every subsequent fix lookup
resolves against B's violations only, whatever index was valid for A. -/
theorem c7_scan_replaces (st : SessionState) (envA envB : Env) (pA pB : String)
    (respA respB : ScanResponse)
    (hpA : pA ≠ "") (hurlA : envA.urlParses = true) (hnetA : envA.scanResult = .ok respA)
    (hpB : pB ≠ "") (hurlB : envB.urlParses = true) (hnetB : envB.scanResult = .ok respB)
    (hkey : st.apiKey ≠ "") (hapi : st.apiUrl ≠ "") :
    (handlerV1 ⟨some "scan", pB⟩ envB
        (handlerV1 ⟨some "scan", pA⟩ envA st).state).state =
      { st with detailedScanResults := extractDetailedScanResults respB,
                scanResults := formatScanResults respB } ∧
    ∀ k : Int,
      violationAt (handlerV1 ⟨some "scan", pB⟩ envB
          (handlerV1 ⟨some "scan", pA⟩ envA st).state).state.detailedScanResults k =
        violationAt (extractDetailedScanResults respB) k := by
  have h1 := handlerV1_scan_ok pA envA st respA hpA hurlA hnetA hkey hapi
  have hstate : (handlerV1 ⟨some "scan", pA⟩ envA st).state
      = { st with detailedScanResults := extractDetailedScanResults respA,
                  scanResults := formatScanResults respA } := by
    rw [h1]
  have h2 := handlerV1_scan_ok pB envB
    { st with detailedScanResults := extractDetailedScanResults respA,
              scanResults := formatScanResults respA } respB hpB hurlB hnetB hkey hapi
  rw [hstate, h2]
  exact ⟨rfl, fun k => rfl⟩

/-- C7 witness: scanning the minor-first response and then the critical-first
response leaves exactly the record derived from the second response. -/
theorem c7_witness :
    ("https://a.example" : String) ≠ "" ∧
    envScanOkMinor.urlParses = true ∧
    envScanOkMinor.scanResult = .ok respMinorFirst ∧
    ("https://b.example" : String) ≠ "" ∧
    envScanOkCritical.urlParses = true ∧
    envScanOkCritical.scanResult = .ok respCriticalFirst ∧
    stEmpty.apiKey ≠ "" ∧ stEmpty.apiUrl ≠ "" ∧
    ((handlerV1 ⟨some "scan", "https://b.example"⟩ envScanOkCritical
        (handlerV1 ⟨some "scan", "https://a.example"⟩ envScanOkMinor stEmpty).state).state =
      { stEmpty with detailedScanResults := extractDetailedScanResults respCriticalFirst,
                     scanResults := formatScanResults respCriticalFirst } ∧
     ∀ k : Int,
       violationAt (handlerV1 ⟨some "scan", "https://b.example"⟩ envScanOkCritical
           (handlerV1 ⟨some "scan", "https://a.example"⟩ envScanOkMinor
             stEmpty).state).state.detailedScanResults k =
         violationAt (extractDetailedScanResults respCriticalFirst) k) :=
  ⟨by decide, rfl, rfl, by decide, rfl, rfl, by decide, by decide,
   c7_scan_replaces stEmpty envScanOkMinor envScanOkCritical
     "https://a.example" "https://b.example" respMinorFirst respCriticalFirst
     (by decide) rfl rfl (by decide) rfl rfl (by decide) (by decide)⟩

/-- C8: when the external scan call fails, the failure is surfaced as the scan
error message carrying the cause-specific text — the authentication (401),
bad request (400) and connection-refused causes produce pairwise distinct
messages — the stored scan state is unchanged (no partial record is ever
committed), and only the one scan call was made. -/
theorem c8_scan_failure (st : SessionState) (env : Env) (p : String) (e : ScanCallError)
    (hp : p ≠ "") (hurl : env.urlParses = true) (hnet : env.scanResult = .error e)
    (hkey : st.apiKey ≠ "") (hapi : st.apiUrl ≠ "") :
    handlerV1 ⟨some "scan", p⟩ env st =
      ⟨[scanningMsg p, scanErrorMsg (scanCallErrorMessage e)], st, [Call.scanCall p]⟩ ∧
    scanCallErrorMessage (.axios ⟨some 401, none, "m"⟩) ≠
      scanCallErrorMessage (.axios ⟨none, some "ECONNREFUSED", "m"⟩) ∧
    scanCallErrorMessage (.axios ⟨some 401, none, "m"⟩) ≠
      scanCallErrorMessage (.axios ⟨some 400, none, "m"⟩) ∧
    scanCallErrorMessage (.axios ⟨some 400, none, "m"⟩) ≠
      scanCallErrorMessage (.axios ⟨none, some "ECONNREFUSED", "m"⟩) := by
  refine ⟨?_, by decide, by decide, by decide⟩
  have hb : handlerV1 ⟨some "scan", p⟩ env st = handlerV1scan p env st := rfl
  rw [hb]
  unfold handlerV1scan performAccessibilityScan
  rw [hurl, hnet]
  simp [hp, hkey, hapi]

/-- C8 witness: a 401 failure leaves the state unchanged and surfaces the
authentication message. -/
theorem c8_witness :
    ("https://a.example" : String) ≠ "" ∧
    envScanAuthFail.urlParses = true ∧
    envScanAuthFail.scanResult =
      .error (.axios ⟨some 401, none, "Request failed with status code 401"⟩) ∧
    stOneViolation.apiKey ≠ "" ∧ stOneViolation.apiUrl ≠ "" ∧
    (handlerV1 ⟨some "scan", "https://a.example"⟩ envScanAuthFail stOneViolation =
      ⟨[scanningMsg "https://a.example",
        scanErrorMsg (scanCallErrorMessage
          (.axios ⟨some 401, none, "Request failed with status code 401"⟩))],
       stOneViolation, [Call.scanCall "https://a.example"]⟩) :=
  ⟨by decide, rfl, rfl, by decide, by decide,
   (c8_scan_failure stOneViolation envScanAuthFail "https://a.example"
     (.axios ⟨some 401, none, "Request failed with status code 401"⟩)
     (by decide) rfl rfl (by decide) (by decide)).1⟩

/-- C10: a query string whose first character is a left curly bracket is
parsed as JSON and the parsed value is posted as the request body instead of
the wrapped object; if the parse fails, the call fails with an API-request-
failed error and no request is sent; every other query string is posted with
the body being exactly the object wrapping the query string. -/
theorem c10_query_body_selection (apiUrl command apiKey q : String)
    (net : Except String AccessibilityResponse) :
    (∀ v, startsWithBrace q = true → jsonParse q = .ok v →
      (queryAccessibilityApi apiUrl command apiKey q net).requestBody = some v) ∧
    (∀ e, startsWithBrace q = true → jsonParse q = .error e →
      (queryAccessibilityApi apiUrl command apiKey q net).requestBody = none ∧
      (queryAccessibilityApi apiUrl command apiKey q net).response =
        .error ("API request failed: " ++ e)) ∧
    (startsWithBrace q = false →
      (queryAccessibilityApi apiUrl command apiKey q net).requestBody =
        some (JsonVal.obj [("query", JsonVal.str q)])) := by
  refine ⟨?_, ?_, ?_⟩
  · intro v hb hp
    unfold queryAccessibilityApi
    rw [hb]
    simp only [if_true]
    rw [hp]
    cases net <;> rfl
  · intro e hb hp
    unfold queryAccessibilityApi
    rw [hb]
    simp only [if_true]
    rw [hp]
    exact ⟨rfl, rfl⟩
  · intro hb
    unfold queryAccessibilityApi
    rw [hb]
    simp only [Bool.false_eq_true, if_false]
    cases net <;> rfl

/-- C10 witness: a concrete JSON query is parsed and posted as-is. -/
theorem c10_witness :
    startsWithBrace "\x7b\"query\": \"fix this\", \"n\": 2\x7d" = true ∧
    jsonParse "\x7b\"query\": \"fix this\", \"n\": 2\x7d" =
      .ok (JsonVal.obj [("query", JsonVal.str "fix this"), ("n", JsonVal.num "2")]) ∧
    (queryAccessibilityApi "http://localhost:8000" "fix" "sk-key"
        "\x7b\"query\": \"fix this\", \"n\": 2\x7d" (.error "net")).requestBody =
      some (JsonVal.obj [("query", JsonVal.str "fix this"), ("n", JsonVal.num "2")]) :=
  ⟨rfl, rfl,
   (c10_query_body_selection "http://localhost:8000" "fix" "sk-key"
       "\x7b\"query\": \"fix this\", \"n\": 2\x7d" (.error "net")).1
     (JsonVal.obj [("query", JsonVal.str "fix this"), ("n", JsonVal.num "2")]) rfl rfl⟩
